import Mathlib

/-!
Verification of the devchat workflow engine and configuration manager.

The repository contains two implementations of the workflow manager:
* `src/devchat/core/workflows/workflow.py` (modelled below in namespace `WF`),
  which stores one yaml file per workflow in a directory and runs steps with an
  if/elif dispatch on `step.type`;
* `.github/_cli/workflow/manager.py` (modelled in namespace `MGR`), which keeps
  an in-memory dict of workflows loaded from a single yaml file, and whose
  `run_workflow` wraps the step loop in try/except, returning
  `{"success": False, "error": ..., "partial_results": ...}` on an exception.

Python dicts are modelled as association lists with the Python insertion
semantics (updating an existing key keeps its position; a new key is appended).
Raised exceptions are modelled as `Except.error`; external effects (filesystem
probes, the analyzer and the AI engine used by `manager.py` handlers) are
abstracted into an environment record so that a handler may succeed or raise.
-/

namespace DevChat

/-- A yaml document value, as produced by `yaml.safe_load` / consumed by
`yaml.dump` for the structures this repository serializes (strings, lists,
string-keyed mappings). -/
inductive YVal where
  | str (s : String)
  | list (l : List YVal)
  | dict (d : List (String × YVal))

/-- `d.get(k)` / `d[k]` lookup on a Python dict modelled as an association
list with unique keys. -/
def dlookup (k : String) : List (String × α) → Option α
  | [] => none
  | (j, v) :: rest => if j = k then some v else dlookup k rest

/-- `d[k] = v` on a Python dict: an existing key keeps its position and gets
the new value; a fresh key is appended at the end. -/
def dinsert (k : String) (v : α) : List (String × α) → List (String × α)
  | [] => [(k, v)]
  | (j, w) :: rest => if j = k then (k, v) :: rest else (j, w) :: dinsert k v rest

/-- `del d[k]` on a Python dict (the key is present at most once). -/
def ddelete (k : String) : List (String × α) → List (String × α)
  | [] => []
  | (j, w) :: rest => if j = k then rest else (j, w) :: ddelete k rest

/-- The keys of a dict, in iteration order. -/
def dkeys (d : List (String × α)) : List String := d.map Prod.fst

namespace WF

/-- `WorkflowStep` pydantic model (workflow.py lines 6-11): `type`, `name`,
`description`, and an open `parameters` mapping (default `{}`). -/
structure WorkflowStep where
  type : String
  name : String
  description : String
  parameters : List (String × YVal)

/-- `Workflow` pydantic model (workflow.py lines 13-17). -/
structure Workflow where
  name : String
  description : String
  steps : List WorkflowStep

/-- `workflow.dict()` on a step, as serialized by `yaml.dump`
(workflow.py line 43). -/
def WorkflowStep.toY (s : WorkflowStep) : YVal :=
  .dict [("type", .str s.type), ("name", .str s.name),
         ("description", .str s.description), ("parameters", .dict s.parameters)]

/-- `WorkflowStep(**step)` validation (workflow.py line 38 / line 57): the
three string fields are required; `parameters` defaults to `{}` when absent. -/
def WorkflowStep.ofY : YVal → Option WorkflowStep
  | .dict d =>
    match dlookup "type" d, dlookup "name" d, dlookup "description" d,
          dlookup "parameters" d with
    | some (.str t), some (.str n), some (.str ds), some (.dict p) =>
        some ⟨t, n, ds, p⟩
    | some (.str t), some (.str n), some (.str ds), none =>
        some ⟨t, n, ds, []⟩
    | _, _, _, _ => none
  | _ => none

/-- `workflow.dict()` on a whole workflow, as serialized by `yaml.dump`. -/
def Workflow.toY (w : Workflow) : YVal :=
  .dict [("name", .str w.name), ("description", .str w.description),
         ("steps", .list (w.steps.map WorkflowStep.toY))]

/-- Validation of each element of the `steps` list in turn; any invalid step
makes the whole workflow construction fail. -/
def parseSteps : List YVal → Option (List WorkflowStep)
  | [] => some []
  | y :: rest =>
    match WorkflowStep.ofY y, parseSteps rest with
    | some s, some ss => some (s :: ss)
    | _, _ => none

/-- `Workflow(**workflow_data)` (workflow.py line 57). -/
def Workflow.ofY : YVal → Option Workflow
  | .dict d =>
    match dlookup "name" d, dlookup "description" d, dlookup "steps" d with
    | some (.str n), some (.str ds), some (.list ss) =>
      match parseSteps ss with
      | some steps => some ⟨n, ds, steps⟩
      | none => none
    | _, _, _ => none
  | _ => none

/-- The workflows directory: one serialized document per workflow name
(file `<name>.yaml`, workflow.py lines 41-43 and 51). -/
abbrev Store := List (String × YVal)

/-- The write performed by `create_workflow` (workflow.py lines 41-43): the
record is dumped under `<name>.yaml`, overwriting any existing file. The
record written carries the name of the workflow itself as the key. -/
def putWorkflow (st : Store) (w : Workflow) : Store :=
  dinsert w.name w.toY st

/-- `get_workflow` (workflow.py lines 49-57): `None` when no file exists,
otherwise the parsed record. -/
def get_workflow (st : Store) (name : String) : Option Workflow :=
  match dlookup name st with
  | none => none
  | some y => Workflow.ofY y

/-- `list_workflows` (workflow.py lines 45-47): the stems of the stored
files, in enumeration order. -/
def list_workflows (st : Store) : List String := dkeys st

/-- A per-step outcome recorded by `run_workflow` (workflow.py lines 66-72):
the two known handlers are stubs returning `{"status": "not_implemented"}`;
any other `type` yields `{"status": "skipped", "reason": ...}`. -/
inductive StepResult where
  | notImplemented
  | skipped (reason : String)
deriving DecidableEq

/-- The if/elif dispatch of the step loop body (workflow.py lines 67-72). -/
def runStep (s : WorkflowStep) : StepResult :=
  if s.type = "code_analysis" then .notImplemented
  else if s.type = "test_generation" then .notImplemented
  else .skipped ("Unknown step type: " ++ s.type)

/-- The step loop (workflow.py lines 65-73): `results[step.name] = ...`
for each step in declaration order, starting from `results = {}`. -/
def runSteps : List WorkflowStep → List (String × StepResult) →
    List (String × StepResult)
  | [], acc => acc
  | s :: rest, acc => runSteps rest (dinsert s.name (runStep s) acc)

/-- `run_workflow` (workflow.py lines 59-74). A missing workflow raises
`ValueError(f"Workflow not found: {name}")`, modelled as `Except.error`. -/
def run_workflow (st : Store) (name : String) :
    Except String (List (String × StepResult)) :=
  match get_workflow st name with
  | none => .error ("Workflow not found: " ++ name)
  | some w => .ok (runSteps w.steps [])

/-- The step loop again, instrumented with a log of the handler invocations
in the order they are dispatched (one entry per step, its `name`). The
accumulated `results` dict is threaded exactly as in `runSteps`, so at the
moment the handler of a step is dispatched, the results of all earlier steps are
already recorded in the accumulator. -/
def runStepsLogged : List WorkflowStep → List (String × StepResult) →
    List String → List (String × StepResult) × List String
  | [], acc, log => (acc, log)
  | s :: rest, acc, log =>
      runStepsLogged rest (dinsert s.name (runStep s) acc) (log ++ [s.name])

end WF

namespace MGR

/-- One entry of the `steps` list of a workflow in the manager.py `run_workflow`
(lines 190-192): only `step.get("type")` and `step.get("config", {})` are
read, and of the config only the string values under `"file"` and
`"query"`. -/
structure StepB where
  type : Option String
  config : List (String × String)
deriving DecidableEq

/-- A workflow as consumed by the manager.py `run_workflow`: only
`workflow.get("steps", [])` is read. -/
abbrev WorkflowB := List StepB

/-- Result entries appended by the manager.py `run_workflow` (lines 200-225):
`{"step": <tag>, "results": <payload>}`. The payload type is abstract. -/
structure StepOutcome (α : Type) where
  step : String
  results : α
deriving DecidableEq

/-- The external effects of the manager.py `run_workflow` handlers:
`os.path.exists`, `CodeAnalyzer().analyze_complexity`,
`AIEngine().get_code_assistance` and `AIEngine().generate_tests`. Each call
may raise, modelled by `Except`. -/
structure EnvB (α : Type) where
  fileExists : String → Bool
  analyzeComplexity : String → Except String α
  codeAssist : String → Option String → Except String α
  generateTests : String → Except String α

/-- The outcome of the manager.py `run_workflow` (lines 180-238): a missing
name returns `{"success": False, "error": "Workflow not found"}`; a completed
run returns `{"success": True, "workflow": name, "results": [...]}`; an
exception inside the loop is caught and returned as
`{"success": False, "error": str(e), "partial_results": results}`. -/
inductive RunResultB (α : Type) where
  | notFound
  | completed (workflow : String) (results : List (StepOutcome α))
  | failed (error : String) (partialResults : List (StepOutcome α))
deriving DecidableEq

/-- One iteration of the step loop (manager.py lines 190-225), mirroring the
if/elif chain on `step_type`: a recognized type with a usable config invokes
the matching external call and appends an outcome; a falsy or missing `file`
or `query`, a file that does not exist, or an unrecognized type appends
nothing; a raising external call propagates the exception to the
surrounding try. -/
def runStepB (env : EnvB α) (ctxCode : Option String) (s : StepB) :
    Except String (Option (StepOutcome α)) :=
  if s.type = some "analyze" then
    match dlookup "file" s.config with
    | some f =>
        if f ≠ "" && env.fileExists f then
          match env.analyzeComplexity f with
          | .ok a => .ok (some ⟨"analyze", a⟩)
          | .error e => .error e
        else .ok none
    | none => .ok none
  else if s.type = some "assist" then
    match dlookup "query" s.config with
    | some q =>
        if q ≠ "" then
          match env.codeAssist q ctxCode with
          | .ok r => .ok (some ⟨"assist", r⟩)
          | .error e => .error e
        else .ok none
    | none => .ok none
  else if s.type = some "test" then
    match dlookup "file" s.config with
    | some f =>
        if f ≠ "" && env.fileExists f then
          match env.generateTests f with
          | .ok t => .ok (some ⟨"test", t⟩)
          | .error e => .error e
        else .ok none
    | none => .ok none
  else .ok none

/-- The try-wrapped step loop of the manager.py `run_workflow` (lines
189-238): outcomes are appended to `results` as steps complete; the first
exception aborts the loop and the except branch returns the failure record
with the outcomes collected so far. -/
def runStepsB (env : EnvB α) (ctx : Option String) (wfName : String) :
    List StepB → List (StepOutcome α) → RunResultB α
  | [], acc => .completed wfName acc
  | s :: rest, acc =>
    match runStepB env ctx s with
    | .error e => .failed e acc
    | .ok none => runStepsB env ctx wfName rest acc
    | .ok (some r) => runStepsB env ctx wfName rest (acc ++ [r])

/-- manager.py `run_workflow` (lines 180-238), with `context.get("code")`
passed as `ctx`. -/
def run_workflowB (store : List (String × WorkflowB)) (env : EnvB α)
    (ctx : Option String) (name : String) : RunResultB α :=
  match dlookup name store with
  | none => .notFound
  | some w => runStepsB env ctx name w []

/-- The outcomes collected by the loop for a list of steps none of which
raises: each step that appends a result contributes it, in order. -/
def collectB (env : EnvB α) (ctx : Option String) (steps : List StepB) :
    List (StepOutcome α) :=
  steps.filterMap (fun s =>
    match runStepB env ctx s with
    | .ok r => r
    | .error _ => none)

/-- The state of a manager.py `WorkflowManager`: the in-memory `workflows`
dict (backing `add_workflow`, `remove_workflow`, `get_workflow`,
`list_workflows`); the `workflows_dir` attribute, which `__init__` (lines
16-24) never assigns, hence `none`; and the set of workflow names having a
`<name>.yml` file under that directory (used by `create_workflow`,
`update_workflow` and `delete_workflow`; their file contents are not read
back by any listed operation and carry a wall-clock timestamp, so only the
names are tracked). -/
structure ManagerState where
  workflows : List (String × WorkflowB)
  workflowsDir : Option String
  files : List String
deriving DecidableEq

/-- The state built by `__init__` from the workflows loaded out of the
single configuration file: `workflows_dir` is never set. -/
def initManagerState (loaded : List (String × WorkflowB)) : ManagerState :=
  ⟨loaded, none, []⟩

/-- `add_workflow` (manager.py lines 49-58): dict assignment then save. -/
def add_workflowB (st : ManagerState) (name : String) (wf : WorkflowB) :
    ManagerState :=
  { st with workflows := dinsert name wf st.workflows }

/-- `remove_workflow` (manager.py lines 60-69). -/
def remove_workflowB (st : ManagerState) (name : String) : ManagerState :=
  if (dlookup name st.workflows).isSome then
    { st with workflows := ddelete name st.workflows }
  else st

/-- `list_workflows` (manager.py lines 82-88): the keys of the in-memory
dict — not the files under `workflows_dir`. -/
def list_workflowsB (st : ManagerState) : List String := dkeys st.workflows

/-- The message of the `AttributeError` raised by any access to the
unassigned `self.workflows_dir`. -/
def workflowsDirError : String :=
  "AttributeError: WorkflowManager object has no attribute workflows_dir"

/-- `create_workflow` (manager.py lines 136-154). Its first statement reads
`self.workflows_dir`, which `__init__` never sets, so as written every call
raises `AttributeError`; were the attribute present, an existing
`<name>.yml` makes it return `False` without writing, and otherwise the
record is written and `True` returned. -/
def create_workflowB (st : ManagerState) (name : String)
    (description : String) (steps : List StepB) : Except String (Bool × ManagerState) :=
  match st.workflowsDir with
  | none => .error workflowsDirError
  | some _ =>
    if name ∈ st.files then .ok (false, st)
    else .ok (true, { st with files := st.files ++ [name] })

/-- `delete_workflow` (manager.py lines 171-178). Like `create_workflow` it
reads the unassigned `self.workflows_dir` first; were it present, a missing
file returns `False`, otherwise the file is removed and `True` returned. -/
def delete_workflowB (st : ManagerState) (name : String) :
    Except String (Bool × ManagerState) :=
  match st.workflowsDir with
  | none => .error workflowsDirError
  | some _ =>
    if name ∈ st.files then
      .ok (true, { st with files := st.files.filter (fun f => f ≠ name) })
    else .ok (false, st)

/-- An external handler invocation made by the manager.py `run_workflow`
loop body: the analyzer call, the AI-engine assistance call, or the
AI-engine test-generation call, with the arguments it is given. -/
inductive CallB where
  | analyze (file : String)
  | assist (query : String) (code : Option String)
  | test (file : String)
deriving DecidableEq

/-- `runStepB` again, instrumented with the external handler invocations the
loop body performs for this step, in the order it makes them (each branch
makes at most one call; a guard that fails makes none). The first component
is the same outcome `runStepB` produces. -/
def runStepBLogged (env : EnvB α) (ctxCode : Option String) (s : StepB) :
    Except String (Option (StepOutcome α)) × List CallB :=
  if s.type = some "analyze" then
    match dlookup "file" s.config with
    | some f =>
        if f ≠ "" && env.fileExists f then
          match env.analyzeComplexity f with
          | .ok a => (.ok (some ⟨"analyze", a⟩), [.analyze f])
          | .error e => (.error e, [.analyze f])
        else (.ok none, [])
    | none => (.ok none, [])
  else if s.type = some "assist" then
    match dlookup "query" s.config with
    | some q =>
        if q ≠ "" then
          match env.codeAssist q ctxCode with
          | .ok r => (.ok (some ⟨"assist", r⟩), [.assist q ctxCode])
          | .error e => (.error e, [.assist q ctxCode])
        else (.ok none, [])
    | none => (.ok none, [])
  else if s.type = some "test" then
    match dlookup "file" s.config with
    | some f =>
        if f ≠ "" && env.fileExists f then
          match env.generateTests f with
          | .ok t => (.ok (some ⟨"test", t⟩), [.test f])
          | .error e => (.error e, [.test f])
        else (.ok none, [])
    | none => (.ok none, [])
  else (.ok none, [])

/-- The step loop of the manager.py `run_workflow`, instrumented with the
log of external handler invocations in the order they happen; outcomes are
threaded exactly as in `runStepsB`, so when a step is dispatched the
results of all earlier steps are already recorded in the accumulator. -/
def runStepsBLogged (env : EnvB α) (ctx : Option String) (wfName : String) :
    List StepB → List (StepOutcome α) → List CallB →
      RunResultB α × List CallB
  | [], acc, log => (.completed wfName acc, log)
  | s :: rest, acc, log =>
    match runStepBLogged env ctx s with
    | (.error e, calls) => (.failed e acc, log ++ calls)
    | (.ok none, calls) => runStepsBLogged env ctx wfName rest acc (log ++ calls)
    | (.ok (some r), calls) =>
        runStepsBLogged env ctx wfName rest (acc ++ [r]) (log ++ calls)

/-- The external handler invocations of a step sequence, step by step in
declaration order (the per-step calls of the first step, then of the
second, and so on). -/
def callLogB (env : EnvB α) (ctx : Option String) : List StepB → List CallB
  | [] => []
  | s :: rest => (runStepBLogged env ctx s).2 ++ callLogB env ctx rest

/-- The step loop of manager.py `execute_workflow` (lines 104-115): the
if/elif chain on `step.get("type")` stores the result of each matched
handler under a fixed tag — `results["analysis"]`, `results["tests"]`,
`results["refactoring"]` — never under the step name; a step of any other
type stores nothing. The three handlers (lines 121-134) are stubs whose
bodies are `pass`, so each returns `None`. -/
def executeSteps : List StepB → List (String × Option Unit) →
    List (String × Option Unit)
  | [], acc => acc
  | s :: rest, acc =>
    if s.type = some "code_analysis" then
      executeSteps rest (dinsert "analysis" none acc)
    else if s.type = some "test_generation" then
      executeSteps rest (dinsert "tests" none acc)
    else if s.type = some "refactoring" then
      executeSteps rest (dinsert "refactoring" none acc)
    else executeSteps rest acc

/-- manager.py `execute_workflow` (lines 90-119): a missing name raises
`ValueError` (modelled as `Except.error`; the quoted name in the message is
elided), otherwise the step loop runs and the results dict is returned. -/
def execute_workflowB (store : List (String × WorkflowB)) (name : String) :
    Except String (List (String × Option Unit)) :=
  match dlookup name store with
  | none => .error ("ValueError: workflow not found: " ++ name)
  | some w => .ok (executeSteps w [])

end MGR

namespace CFG

/-- The `Config` pydantic model (config.py lines 7-13). `ConfigManager.set`
assigns the raw string it is given (pydantic v1 does not validate
assignments by default), so field values are carried as their textual
form; the two optional fields default to `None`. -/
structure Config where
  model : String
  temperature : String
  max_tokens : String
  api_key : Option String
  huggingface_token : Option String
deriving DecidableEq

/-- The defaults of the `Config` model (config.py lines 9-13). -/
def defaultConfig : Config := ⟨"gpt-4", "0.7", "2000", none, none⟩

/-- The field names of the `Config` model. `hasattr(self.config, key)` is
modelled as membership in this list (the data attributes of the model; class-level
method attributes are not modelled). -/
def configFieldNames : List String :=
  ["model", "temperature", "max_tokens", "api_key", "huggingface_token"]

/-- `setattr(self.config, key, value)` for a field of the model. -/
def Config.setField (c : Config) (key value : String) : Config :=
  if key = "model" then { c with model := value }
  else if key = "temperature" then { c with temperature := value }
  else if key = "max_tokens" then { c with max_tokens := value }
  else if key = "api_key" then { c with api_key := some value }
  else if key = "huggingface_token" then { c with huggingface_token := some value }
  else c

/-- A `ConfigManager`: the in-memory `Config` plus the contents of
`config.yaml` after the last `save_config` (`none` when never written). -/
structure ConfigManagerState where
  config : Config
  savedFile : Option Config
deriving DecidableEq

/-- `ConfigManager.set` (config.py lines 45-49): only when `key` is an
attribute of the model is the value assigned and `save_config` called;
otherwise the call falls through and does nothing. -/
def configSet (st : ConfigManagerState) (key value : String) :
    ConfigManagerState :=
  if key ∈ configFieldNames then
    let c := st.config.setField key value
    { config := c, savedFile := some c }
  else st

end CFG

/-! Concrete fixtures used to evaluate the definitions at specific inputs. -/

/-- A three-step workflow for workflow.py: a known handler, an unknown
`type`, and another known handler. -/
def exStep1 : WF.WorkflowStep := ⟨"code_analysis", "s1", "first", []⟩

def exStep2 : WF.WorkflowStep := ⟨"foo", "s2", "second", []⟩

def exStep3 : WF.WorkflowStep := ⟨"test_generation", "s3", "third", []⟩

def exWorkflow : WF.Workflow := ⟨"wf", "demo", [exStep1, exStep2, exStep3]⟩

def exStore : WF.Store := WF.putWorkflow [] exWorkflow

/-- A two-step workflow whose steps share the name `dup`. -/
def dupStep1 : WF.WorkflowStep := ⟨"code_analysis", "dup", "earlier", []⟩

def dupStep2 : WF.WorkflowStep := ⟨"bar", "dup", "later", []⟩

def dupWorkflow : WF.Workflow := ⟨"dupwf", "duplicate names", [dupStep1, dupStep2]⟩

def dupStore : WF.Store := WF.putWorkflow [] dupWorkflow

/-- A workflow with distinct step names for the keyed-results claim. -/
def disWorkflow : WF.Workflow := ⟨"diswf", "distinct names", [exStep2, exStep3]⟩

def disStore : WF.Store := WF.putWorkflow [] disWorkflow

/-- An environment for manager.py in which the analyzer succeeds and the AI
engine assistance call raises. -/
def exEnv : MGR.EnvB String :=
  ⟨fun _ => true,
   fun f => .ok ("metrics:" ++ f),
   fun q _ => .error ("assist failed: " ++ q),
   fun f => .ok ("tests:" ++ f)⟩

/-- An environment for manager.py in which every external call raises. -/
def downEnv : MGR.EnvB Unit :=
  ⟨fun _ => false,
   fun _ => .error "down",
   fun _ _ => .error "down",
   fun _ => .error "down"⟩

def exStepOk : MGR.StepB := ⟨some "analyze", [("file", "a.py")]⟩

def exStepBad : MGR.StepB := ⟨some "assist", [("query", "q1")]⟩

def exStoreB : List (String × MGR.WorkflowB) := [("wfb", [exStepOk, exStepBad])]

/-- A replacement workflow stored under the same name as `exWorkflow`. -/
def exWorkflow2 : WF.Workflow := ⟨"wf", "replacement", [exStep2]⟩

/-- A second step whose external call succeeds under `exEnv`, and a store
holding a two-step all-succeeding workflow for the ordering claim. -/
def exStepOk2 : MGR.StepB := ⟨some "test", [("file", "b.py")]⟩

def ordStoreB : List (String × MGR.WorkflowB) := [("ordwf", [exStepOk, exStepOk2])]

/-- Steps and stores exercising manager.py `execute_workflow`: a step of a
type its chain matches, and one of a type it does not. -/
def exStepCA : MGR.StepB := ⟨some "code_analysis", []⟩

def exStepAssist : MGR.StepB := ⟨some "assist", []⟩

def exeStoreMiss : List (String × MGR.WorkflowB) := [("ewf", [exStepAssist])]

def exeStoreCA : List (String × MGR.WorkflowB) := [("ewf2", [exStepCA])]

/-! ### Dictionary lemmas -/

theorem dlookup_dinsert_self (k : String) (v : α) (d : List (String × α)) :
    dlookup k (dinsert k v d) = some v := by
  induction d with
  | nil => simp [dinsert, dlookup]
  | cons p rest ih =>
    obtain ⟨j, w⟩ := p
    by_cases h : j = k
    · simp [dinsert, dlookup, h]
    · simp [dinsert, dlookup, h, ih]

theorem dlookup_dinsert_ne {j k : String} (h : j ≠ k) (v : α)
    (d : List (String × α)) : dlookup k (dinsert j v d) = dlookup k d := by
  induction d with
  | nil => simp [dinsert, dlookup, h]
  | cons p rest ih =>
    obtain ⟨i, w⟩ := p
    by_cases hij : i = j
    · subst hij; simp [dinsert, dlookup, h]
    · simp only [dinsert, dlookup, if_neg hij]
      split <;> simp [dlookup, ih]

theorem dinsert_fresh {k : String} {d : List (String × α)} (h : k ∉ dkeys d)
    (v : α) : dinsert k v d = d ++ [(k, v)] := by
  induction d with
  | nil => simp [dinsert]
  | cons p rest ih =>
    obtain ⟨j, w⟩ := p
    simp only [dkeys, List.map_cons, List.mem_cons, not_or] at h
    have hjk : ¬ j = k := fun hh => h.1 hh.symm
    simp [dinsert, hjk, ih h.2]

theorem dkeys_dinsert_mem {k : String} {d : List (String × α)}
    (hk : k ∈ dkeys d) (v : α) : dkeys (dinsert k v d) = dkeys d := by
  induction d with
  | nil => simp [dkeys] at hk
  | cons p rest ih =>
    obtain ⟨j, w⟩ := p
    by_cases h : j = k
    · subst h; simp [dinsert, dkeys]
    · have hk2 : k ∈ dkeys rest := by
        simp only [dkeys, List.map_cons, List.mem_cons] at hk
        rcases hk with h1 | h1
        · exact absurd h1.symm h
        · exact h1
      have hrec := ih hk2
      simp only [dkeys] at hrec
      simp [dinsert, dkeys, h, hrec]

theorem nodup_dkeys_dinsert (k : String) (v : α) (d : List (String × α))
    (h : (dkeys d).Nodup) : (dkeys (dinsert k v d)).Nodup := by
  by_cases hk : k ∈ dkeys d
  · rw [dkeys_dinsert_mem hk]; exact h
  · rw [dinsert_fresh hk]
    simp only [dkeys, List.map_append, List.map_cons, List.map_nil]
    rw [List.nodup_append_comm]
    simp only [List.singleton_append, List.nodup_cons]
    exact ⟨by simpa [dkeys] using hk, by simpa [dkeys] using h⟩

theorem mem_dkeys_of_dlookup {k : String} {v : α} {d : List (String × α)}
    (h : dlookup k d = some v) : k ∈ dkeys d := by
  induction d with
  | nil => simp [dlookup] at h
  | cons p rest ih =>
    obtain ⟨j, w⟩ := p
    by_cases hj : j = k
    · simp [dkeys, hj]
    · simp only [dlookup, if_neg hj] at h
      simp only [dkeys, List.map_cons, List.mem_cons]
      exact Or.inr (ih h)

theorem dlookup_eq_some_of_mem {k : String} {v : α} {d : List (String × α)}
    (hnd : (dkeys d).Nodup) (hm : (k, v) ∈ d) : dlookup k d = some v := by
  induction d with
  | nil => simp at hm
  | cons p rest ih =>
    obtain ⟨j, w⟩ := p
    simp only [dkeys, List.map_cons, List.nodup_cons] at hnd
    simp only [List.mem_cons, Prod.mk.injEq] at hm
    rcases hm with ⟨rfl, rfl⟩ | hm
    · simp [dlookup]
    · have hj : ¬ j = k := by
        rintro rfl
        exact hnd.1 (List.mem_map_of_mem Prod.fst hm)
      simp only [dlookup, if_neg hj]
      exact ih hnd.2 hm

/-! ### Lemmas about the workflow.py step loop -/

theorem runSteps_append (l1 l2 : List WF.WorkflowStep)
    (acc : List (String × WF.StepResult)) :
    WF.runSteps (l1 ++ l2) acc = WF.runSteps l2 (WF.runSteps l1 acc) := by
  induction l1 generalizing acc with
  | nil => rfl
  | cons s rest ih => simp [WF.runSteps, ih]

theorem dlookup_runSteps_notin (steps : List WF.WorkflowStep)
    (acc : List (String × WF.StepResult)) (k : String)
    (h : ∀ s ∈ steps, s.name ≠ k) :
    dlookup k (WF.runSteps steps acc) = dlookup k acc := by
  induction steps generalizing acc with
  | nil => rfl
  | cons s rest ih =>
    simp only [WF.runSteps]
    rw [ih _ (fun t ht => h t (List.mem_cons_of_mem _ ht))]
    exact dlookup_dinsert_ne (h s (List.mem_cons_self _ _)) _ _

theorem nodup_dkeys_runSteps (steps : List WF.WorkflowStep)
    (acc : List (String × WF.StepResult)) (h : (dkeys acc).Nodup) :
    (dkeys (WF.runSteps steps acc)).Nodup := by
  induction steps generalizing acc with
  | nil => exact h
  | cons s rest ih => exact ih _ (nodup_dkeys_dinsert _ _ _ h)

theorem runSteps_fresh (steps : List WF.WorkflowStep)
    (acc : List (String × WF.StepResult))
    (hacc : ∀ s ∈ steps, s.name ∉ dkeys acc)
    (hnd : (steps.map WF.WorkflowStep.name).Nodup) :
    WF.runSteps steps acc = acc ++ steps.map (fun s => (s.name, WF.runStep s)) := by
  induction steps generalizing acc with
  | nil => simp [WF.runSteps]
  | cons s rest ih =>
    simp only [List.map_cons, List.nodup_cons] at hnd
    have h1 : s.name ∉ dkeys acc := hacc s (List.mem_cons_self _ _)
    simp only [WF.runSteps]
    rw [dinsert_fresh h1, ih (acc ++ [(s.name, WF.runStep s)]) ?_ hnd.2]
    · simp
    · intro t ht
      simp only [dkeys, List.map_append, List.map_cons, List.map_nil,
        List.mem_append, List.mem_singleton, not_or]
      refine ⟨hacc t (List.mem_cons_of_mem _ ht), ?_⟩
      intro hEq
      exact hnd.1 (hEq ▸ List.mem_map_of_mem WF.WorkflowStep.name ht)

theorem runStepsLogged_res (steps : List WF.WorkflowStep)
    (acc : List (String × WF.StepResult)) (log : List String) :
    (WF.runStepsLogged steps acc log).1 = WF.runSteps steps acc := by
  induction steps generalizing acc log with
  | nil => rfl
  | cons s rest ih => simp [WF.runStepsLogged, WF.runSteps, ih]

theorem runStepsLogged_log (steps : List WF.WorkflowStep)
    (acc : List (String × WF.StepResult)) (log : List String) :
    (WF.runStepsLogged steps acc log).2 = log ++ steps.map WF.WorkflowStep.name := by
  induction steps generalizing acc log with
  | nil => simp [WF.runStepsLogged]
  | cons s rest ih => simp [WF.runStepsLogged, ih]

theorem runStepsLogged_append (l1 l2 : List WF.WorkflowStep)
    (acc : List (String × WF.StepResult)) (log : List String) :
    WF.runStepsLogged (l1 ++ l2) acc log =
      WF.runStepsLogged l2 (WF.runSteps l1 acc) (log ++ l1.map WF.WorkflowStep.name) := by
  induction l1 generalizing acc log with
  | nil => simp [WF.runSteps]
  | cons s rest ih => simp [WF.runStepsLogged, WF.runSteps, ih]

/-! ### Serialization round-trip lemmas -/

theorem step_ofY_toY (s : WF.WorkflowStep) :
    WF.WorkflowStep.ofY s.toY = some s := by
  obtain ⟨t, n, ds, p⟩ := s
  simp [WF.WorkflowStep.toY, WF.WorkflowStep.ofY, dlookup]

theorem parseSteps_map_toY (l : List WF.WorkflowStep) :
    WF.parseSteps (l.map WF.WorkflowStep.toY) = some l := by
  induction l with
  | nil => rfl
  | cons s rest ih => simp [WF.parseSteps, step_ofY_toY, ih]

theorem workflow_ofY_toY (w : WF.Workflow) :
    WF.Workflow.ofY w.toY = some w := by
  obtain ⟨n, ds, steps⟩ := w
  simp [WF.Workflow.toY, WF.Workflow.ofY, dlookup, parseSteps_map_toY]

theorem get_workflow_putWorkflow (st : WF.Store) (w : WF.Workflow) :
    WF.get_workflow (WF.putWorkflow st w) w.name = some w := by
  simp [WF.get_workflow, WF.putWorkflow, dlookup_dinsert_self, workflow_ofY_toY]

/-! ### Lemmas about the manager.py step loop -/

theorem runStepsB_ok_append (env : MGR.EnvB α) (ctx : Option String)
    (nm : String) (l1 l2 : List MGR.StepB) (acc : List (MGR.StepOutcome α))
    (h : ∀ t ∈ l1, ∃ r, MGR.runStepB env ctx t = .ok r) :
    MGR.runStepsB env ctx nm (l1 ++ l2) acc =
      MGR.runStepsB env ctx nm l2 (acc ++ MGR.collectB env ctx l1) := by
  induction l1 generalizing acc with
  | nil => simp [MGR.collectB]
  | cons t rest ih =>
    obtain ⟨r, hr⟩ := h t (List.mem_cons_self _ _)
    have hrest : ∀ u ∈ rest, ∃ r, MGR.runStepB env ctx u = .ok r :=
      fun u hu => h u (List.mem_cons_of_mem _ hu)
    cases r with
    | none =>
      simp only [List.cons_append, MGR.runStepsB, hr, List.append_eq]
      rw [ih _ hrest]
      simp [MGR.collectB, hr]
    | some v =>
      simp only [List.cons_append, MGR.runStepsB, hr, List.append_eq]
      rw [ih _ hrest]
      simp [MGR.collectB, hr]

theorem runStepBLogged_fst (env : MGR.EnvB α) (ctx : Option String)
    (s : MGR.StepB) :
    (MGR.runStepBLogged env ctx s).1 = MGR.runStepB env ctx s := by
  unfold MGR.runStepBLogged MGR.runStepB
  repeat' split <;> try rfl

theorem runStepsBLogged_fst (env : MGR.EnvB α) (ctx : Option String)
    (nm : String) (steps : List MGR.StepB) (acc : List (MGR.StepOutcome α))
    (log : List MGR.CallB) :
    (MGR.runStepsBLogged env ctx nm steps acc log).1 =
      MGR.runStepsB env ctx nm steps acc := by
  induction steps generalizing acc log with
  | nil => rfl
  | cons s rest ih =>
    have h1 : MGR.runStepB env ctx s = (MGR.runStepBLogged env ctx s).1 :=
      (runStepBLogged_fst env ctx s).symm
    rcases hsplit : MGR.runStepBLogged env ctx s with ⟨res, calls⟩
    rw [hsplit] at h1
    cases res with
    | error e => simp [MGR.runStepsBLogged, MGR.runStepsB, hsplit, h1]
    | ok o =>
      cases o with
      | none => simp [MGR.runStepsBLogged, MGR.runStepsB, hsplit, h1, ih]
      | some r => simp [MGR.runStepsBLogged, MGR.runStepsB, hsplit, h1, ih]

theorem runStepsBLogged_log_ok (env : MGR.EnvB α) (ctx : Option String)
    (nm : String) (steps : List MGR.StepB) (acc : List (MGR.StepOutcome α))
    (log : List MGR.CallB)
    (h : ∀ t ∈ steps, ∃ r, MGR.runStepB env ctx t = .ok r) :
    (MGR.runStepsBLogged env ctx nm steps acc log).2 =
      log ++ MGR.callLogB env ctx steps := by
  induction steps generalizing acc log with
  | nil => simp [MGR.runStepsBLogged, MGR.callLogB]
  | cons s rest ih =>
    obtain ⟨r, hr⟩ := h s (List.mem_cons_self _ _)
    have hrest : ∀ u ∈ rest, ∃ r, MGR.runStepB env ctx u = .ok r :=
      fun u hu => h u (List.mem_cons_of_mem _ hu)
    rcases hsplit : MGR.runStepBLogged env ctx s with ⟨res, calls⟩
    have hres : res = .ok r := by
      rw [← hr, ← runStepBLogged_fst env ctx s, hsplit]
    subst hres
    cases r with
    | none => simp [MGR.runStepsBLogged, hsplit, MGR.callLogB, ih _ _ hrest]
    | some v => simp [MGR.runStepsBLogged, hsplit, MGR.callLogB, ih _ _ hrest]

theorem runStepsBLogged_ok_append (env : MGR.EnvB α) (ctx : Option String)
    (nm : String) (l1 l2 : List MGR.StepB) (acc : List (MGR.StepOutcome α))
    (log : List MGR.CallB)
    (h : ∀ t ∈ l1, ∃ r, MGR.runStepB env ctx t = .ok r) :
    MGR.runStepsBLogged env ctx nm (l1 ++ l2) acc log =
      MGR.runStepsBLogged env ctx nm l2 (acc ++ MGR.collectB env ctx l1)
        (log ++ MGR.callLogB env ctx l1) := by
  induction l1 generalizing acc log with
  | nil => simp [MGR.collectB, MGR.callLogB]
  | cons t rest ih =>
    obtain ⟨r, hr⟩ := h t (List.mem_cons_self _ _)
    have hrest : ∀ u ∈ rest, ∃ r, MGR.runStepB env ctx u = .ok r :=
      fun u hu => h u (List.mem_cons_of_mem _ hu)
    rcases hsplit : MGR.runStepBLogged env ctx t with ⟨res, calls⟩
    have hres : res = .ok r := by
      rw [← hr, ← runStepBLogged_fst env ctx t, hsplit]
    subst hres
    cases r with
    | none =>
      simp only [List.cons_append, MGR.runStepsBLogged, hsplit, List.append_eq]
      rw [ih _ _ hrest]
      simp [MGR.collectB, MGR.callLogB, hsplit, hr]
    | some v =>
      simp only [List.cons_append, MGR.runStepsBLogged, hsplit, List.append_eq]
      rw [ih _ _ hrest]
      simp [MGR.collectB, MGR.callLogB, hsplit, hr]

/-! ### Lemmas about the manager.py execute_workflow loop -/

theorem dkeys_dinsert_subset {k : String} {v : α} {d : List (String × α)} :
    dkeys (dinsert k v d) ⊆ k :: dkeys d := by
  by_cases hk : k ∈ dkeys d
  · rw [dkeys_dinsert_mem hk]
    exact List.subset_cons_self _ _
  · rw [dinsert_fresh hk]
    intro x hx
    simp only [dkeys, List.map_append, List.map_cons, List.map_nil,
      List.mem_append, List.mem_singleton, List.mem_cons] at hx ⊢
    tauto

theorem dkeys_executeSteps_subset (steps : List MGR.StepB)
    (acc : List (String × Option Unit))
    (hacc : dkeys acc ⊆ ["analysis", "tests", "refactoring"]) :
    dkeys (MGR.executeSteps steps acc) ⊆ ["analysis", "tests", "refactoring"] := by
  induction steps generalizing acc with
  | nil => exact hacc
  | cons s rest ih =>
    have hins : ∀ k : String, k ∈ (["analysis", "tests", "refactoring"] : List String) →
        dkeys (dinsert k (none : Option Unit) acc) ⊆
          ["analysis", "tests", "refactoring"] := by
      intro k hk x hx
      rcases List.mem_cons.mp (dkeys_dinsert_subset hx) with rfl | hx2
      · exact hk
      · exact hacc hx2
    simp only [MGR.executeSteps]
    split_ifs with h1 h2 h3
    · exact ih _ (hins _ (by decide))
    · exact ih _ (hins _ (by decide))
    · exact ih _ (hins _ (by decide))
    · exact ih _ hacc

/-! ### Claim theorems -/

/-- C1: if a step handler raises an exception during a manager.py workflow
run, the public entry point `run_workflow` does not let the exception
propagate: it returns the failure record with the error string and the
outcomes already collected for the steps preceding the failing one. -/
theorem C1_handler_error_gives_failure_with_partials
    (store : List (String × MGR.WorkflowB)) (env : MGR.EnvB α)
    (ctx : Option String) (name : String) (w : MGR.WorkflowB)
    (pre post : List MGR.StepB) (s : MGR.StepB) (e : String)
    (hw : dlookup name store = some w)
    (hsteps : w = pre ++ s :: post)
    (hpre : ∀ t ∈ pre, ∃ r, MGR.runStepB env ctx t = .ok r)
    (hs : MGR.runStepB env ctx s = .error e) :
    MGR.run_workflowB store env ctx name =
      .failed e (MGR.collectB env ctx pre) := by
  subst hsteps
  simp only [MGR.run_workflowB, hw]
  rw [runStepsB_ok_append env ctx name pre (s :: post) [] hpre]
  simp [MGR.runStepsB, hs]

/-- C1 witness: in the stored two-step workflow `wfb`, the first step
succeeds and the second raises; the run returns the failure record carrying
the first outcome. -/
theorem C1_handler_error_witness :
    dlookup "wfb" exStoreB = some [exStepOk, exStepBad] ∧
    MGR.runStepB exEnv none exStepBad = .error "assist failed: q1" ∧
    MGR.run_workflowB exStoreB exEnv none "wfb" =
      .failed "assist failed: q1" [⟨"analyze", "metrics:a.py"⟩] := by
  have h := C1_handler_error_gives_failure_with_partials exStoreB exEnv none
    "wfb" [exStepOk, exStepBad] [exStepOk] [] exStepBad "assist failed: q1"
    rfl rfl ?pre rfl
  case pre =>
    intro t ht
    simp only [List.mem_singleton] at ht
    subst ht
    exact ⟨some ⟨"analyze", "metrics:a.py"⟩, rfl⟩
  refine ⟨rfl, rfl, ?_⟩
  rw [h]
  rfl

/-- C2 counterexample: in workflow.py, the step of unknown type "foo" in the
stored workflow `wf` yields the reason string "Unknown step type: foo"
(capital U), which differs from the claimed "unknown step type: foo". -/
theorem C2_reason_capitalization_counterexample :
    WF.run_workflow exStore "wf" =
      .ok [("s1", .notImplemented), ("s2", .skipped "Unknown step type: foo"),
           ("s3", .notImplemented)] ∧
    "Unknown step type: foo" ≠ "unknown step type: foo" :=
  ⟨rfl, by decide⟩

/-- C2 (amended): in the workflow.py runner, a step whose `type` matches no
known handler produces the entry
`status "skipped", reason "Unknown step type: <type>"` (capital U), the run
returns normally with one entry per step (under the step-name uniqueness
invariant), and every later step still executes; the manager.py runner also
does not abort on an unrecognized type, but records no entry for it. -/
theorem C2_unknown_type_skipped_run_continues (st : WF.Store) (name : String)
    (w : WF.Workflow) (pre post : List WF.WorkflowStep) (s : WF.WorkflowStep)
    (hget : WF.get_workflow st name = some w)
    (hsteps : w.steps = pre ++ s :: post)
    (hnd : (w.steps.map WF.WorkflowStep.name).Nodup)
    (h1 : s.type ≠ "code_analysis") (h2 : s.type ≠ "test_generation") :
    WF.runStep s = .skipped ("Unknown step type: " ++ s.type) ∧
    WF.run_workflow st name =
      .ok (w.steps.map (fun t => (t.name, WF.runStep t))) ∧
    dlookup s.name (w.steps.map (fun t => (t.name, WF.runStep t))) =
      some (.skipped ("Unknown step type: " ++ s.type)) ∧
    (∀ t ∈ post,
      dlookup t.name (w.steps.map (fun u => (u.name, WF.runStep u))) =
        some (WF.runStep t)) ∧
    (∀ (β : Type) (env : MGR.EnvB β) (ctx : Option String) (tb : MGR.StepB),
      tb.type ≠ some "analyze" → tb.type ≠ some "assist" →
      tb.type ≠ some "test" → MGR.runStepB env ctx tb = .ok none) := by
  have hrs : WF.runStep s = .skipped ("Unknown step type: " ++ s.type) := by
    simp [WF.runStep, h1, h2]
  have hkeys : dkeys (w.steps.map (fun t => (t.name, WF.runStep t))) =
      w.steps.map WF.WorkflowStep.name := by
    simp only [dkeys, List.map_map]
    rfl
  have hndk : (dkeys (w.steps.map (fun t => (t.name, WF.runStep t)))).Nodup := by
    rw [hkeys]; exact hnd
  have hmem : s ∈ w.steps := by
    rw [hsteps]; exact List.mem_append_right pre (List.mem_cons_self _ _)
  refine ⟨hrs, ?_, ?_, ?_, ?_⟩
  · simp only [WF.run_workflow, hget]
    rw [runSteps_fresh w.steps [] (by simp [dkeys]) hnd]
    simp
  · rw [← hrs]
    exact dlookup_eq_some_of_mem hndk
      (List.mem_map_of_mem (fun t => (t.name, WF.runStep t)) hmem)
  · intro t ht
    have htm : t ∈ w.steps := by
      rw [hsteps]
      exact List.mem_append_right pre (List.mem_cons_of_mem _ ht)
    exact dlookup_eq_some_of_mem hndk
      (List.mem_map_of_mem (fun u => (u.name, WF.runStep u)) htm)
  · intro β env ctx tb htb1 htb2 htb3
    simp [MGR.runStepB, htb1, htb2, htb3]

/-- C2 witness: the unknown-type step `s2` of the stored workflow `wf`
yields the skipped entry and the run carries entries for all three steps. -/
theorem C2_unknown_type_witness :
    WF.get_workflow exStore "wf" = some exWorkflow ∧
    exWorkflow.steps = [exStep1] ++ exStep2 :: [exStep3] ∧
    WF.runStep exStep2 = .skipped "Unknown step type: foo" ∧
    dlookup "s2" (exWorkflow.steps.map (fun t => (t.name, WF.runStep t))) =
      some (.skipped "Unknown step type: foo") := by
  have h := C2_unknown_type_skipped_run_continues exStore "wf" exWorkflow
    [exStep1] [exStep3] exStep2 rfl rfl (by decide) (by decide) (by decide)
  exact ⟨rfl, rfl, h.1, h.2.2.1⟩

/-- C3 counterexample: at the concrete input (empty store, name "missing"),
the workflow.py `run_workflow` raises
`ValueError("Workflow not found: missing")` — modelled as `Except.error` —
instead of returning a structured "not found" outcome to the caller. -/
theorem C3_missing_workflow_raises_counterexample :
    WF.run_workflow [] "missing" = .error "Workflow not found: missing" := rfl

/-- C3 (amended): the manager.py `run_workflow` reports a workflow name with
no stored record as the structured record
`success False, error "Workflow not found"`, without raising; the
workflow.py `run_workflow` instead raises `ValueError` for a missing
name. -/
theorem C3_missing_workflow_structured_or_raise {α : Type}
    (storeB : List (String × MGR.WorkflowB)) (env : MGR.EnvB α)
    (ctx : Option String) (storeA : WF.Store) (name : String)
    (hB : dlookup name storeB = none) (hA : dlookup name storeA = none) :
    MGR.run_workflowB storeB env ctx name = .notFound ∧
    WF.run_workflow storeA name = .error ("Workflow not found: " ++ name) := by
  constructor
  · simp [MGR.run_workflowB, hB]
  · simp [WF.run_workflow, WF.get_workflow, hA]

/-- C3 witness: the name `ghost` has no record in either empty store. -/
theorem C3_missing_workflow_witness :
    dlookup "ghost" ([] : List (String × MGR.WorkflowB)) = none ∧
    dlookup "ghost" ([] : WF.Store) = none ∧
    MGR.run_workflowB [] downEnv none "ghost" = .notFound ∧
    WF.run_workflow [] "ghost" = .error "Workflow not found: ghost" := by
  have h := C3_missing_workflow_structured_or_raise [] downEnv none [] "ghost"
    rfl rfl
  exact ⟨rfl, rfl, h.1, h.2⟩

/-- C4: a run of a stored workflow dispatches exactly the handlers of its
steps in declaration order, in both runners. For the workflow.py runner,
the invocation log of the instrumented loop equals the step names in
sequence, its results agree with `run_workflow`, and for every split of the
step sequence, by the time the first handler of the suffix is dispatched
the results of the whole prefix are already recorded in the accumulator.
For the manager.py runner, `run_workflowB` agrees with the instrumented
loop, whose external-call log for a completing run equals the per-step
calls concatenated in declaration order, and for every split whose prefix
raises nothing, the suffix starts only once the outcomes of the whole
prefix are recorded and its calls made. -/
theorem C4_steps_run_in_declaration_order (st : WF.Store) (name : String)
    (w : WF.Workflow) (storeM : List (String × MGR.WorkflowB))
    (envM : MGR.EnvB α) (ctx : Option String) (nameM : String)
    (wM : MGR.WorkflowB)
    (hget : WF.get_workflow st name = some w)
    (hgetM : dlookup nameM storeM = some wM) :
    WF.run_workflow st name = .ok (WF.runStepsLogged w.steps [] []).1 ∧
    (WF.runStepsLogged w.steps [] []).2 = w.steps.map WF.WorkflowStep.name ∧
    (∀ l1 l2, w.steps = l1 ++ l2 →
      WF.runStepsLogged w.steps [] [] =
        WF.runStepsLogged l2 (WF.runSteps l1 [])
          (l1.map WF.WorkflowStep.name)) ∧
    MGR.run_workflowB storeM envM ctx nameM =
      (MGR.runStepsBLogged envM ctx nameM wM [] []).1 ∧
    ((∀ t ∈ wM, ∃ r, MGR.runStepB envM ctx t = .ok r) →
      (MGR.runStepsBLogged envM ctx nameM wM [] []).2 =
        MGR.callLogB envM ctx wM) ∧
    (∀ l1 l2, wM = l1 ++ l2 →
      (∀ t ∈ l1, ∃ r, MGR.runStepB envM ctx t = .ok r) →
      MGR.runStepsBLogged envM ctx nameM wM [] [] =
        MGR.runStepsBLogged envM ctx nameM l2 (MGR.collectB envM ctx l1)
          (MGR.callLogB envM ctx l1)) := by
  refine ⟨?_, ?_, ?_, ?_, ?_, ?_⟩
  · simp only [WF.run_workflow, hget, runStepsLogged_res]
  · simp [runStepsLogged_log]
  · intro l1 l2 hsplit
    rw [hsplit, runStepsLogged_append]
    simp
  · simp only [MGR.run_workflowB, hgetM]
    exact (runStepsBLogged_fst envM ctx nameM wM [] []).symm
  · intro hok
    simpa using runStepsBLogged_log_ok envM ctx nameM wM [] [] hok
  · intro l1 l2 hsplit hok
    rw [hsplit, runStepsBLogged_ok_append envM ctx nameM l1 l2 [] [] hok]
    simp

/-- C4 witness: the three-step workflow.py workflow `wf` logs its handler
invocations as s1, s2, s3 with the suffix `[s3]` starting from the recorded
results of the prefix, and the two-step manager.py workflow `ordwf` logs
the analyzer call then the test-generation call, with the suffix starting
only after the first outcome is recorded. -/
theorem C4_order_witness :
    WF.get_workflow exStore "wf" = some exWorkflow ∧
    (WF.runStepsLogged exWorkflow.steps [] []).2 = ["s1", "s2", "s3"] ∧
    WF.runStepsLogged exWorkflow.steps [] [] =
      WF.runStepsLogged [exStep3] (WF.runSteps [exStep1, exStep2] [])
        ["s1", "s2"] ∧
    dlookup "ordwf" ordStoreB = some [exStepOk, exStepOk2] ∧
    MGR.run_workflowB ordStoreB exEnv none "ordwf" =
      (MGR.runStepsBLogged exEnv none "ordwf" [exStepOk, exStepOk2] [] []).1 ∧
    (MGR.runStepsBLogged exEnv none "ordwf" [exStepOk, exStepOk2] [] []).2 =
      [.analyze "a.py", .test "b.py"] ∧
    MGR.runStepsBLogged exEnv none "ordwf" [exStepOk, exStepOk2] [] [] =
      MGR.runStepsBLogged exEnv none "ordwf" [exStepOk2]
        (MGR.collectB exEnv none [exStepOk])
        (MGR.callLogB exEnv none [exStepOk]) := by
  have h := C4_steps_run_in_declaration_order exStore "wf" exWorkflow
    ordStoreB exEnv none "ordwf" [exStepOk, exStepOk2] rfl rfl
  have hok : ∀ t ∈ [exStepOk, exStepOk2],
      ∃ r, MGR.runStepB exEnv none t = .ok r := by
    intro t ht
    fin_cases ht
    · exact ⟨some ⟨"analyze", "metrics:a.py"⟩, rfl⟩
    · exact ⟨some ⟨"test", "tests:b.py"⟩, rfl⟩
  refine ⟨rfl, ?_, ?_, rfl, ?_, ?_, ?_⟩
  · rw [h.2.1]; rfl
  · exact h.2.2.1 [exStep1, exStep2] [exStep3] rfl
  · exact h.2.2.2.1
  · rw [h.2.2.2.2.1 hok]; rfl
  · refine h.2.2.2.2.2 [exStepOk] [exStepOk2] rfl ?_
    intro t ht
    simp only [List.mem_singleton] at ht
    subst ht
    exact ⟨some ⟨"analyze", "metrics:a.py"⟩, rfl⟩

/-- C5: storing a Workflow under its own name and retrieving by that name
returns the record field-for-field: the serialized document parses back to
the same name, description, and ordered steps with their type, name,
description and parameters. -/
theorem C5_store_roundtrip (st : WF.Store) (w : WF.Workflow) :
    WF.get_workflow (WF.putWorkflow st w) w.name = some w :=
  get_workflow_putWorkflow st w

/-- C6 counterexample: a successful manager.py `execute_workflow` run of
the stored one-step workflow `ewf` (its single step has a type the chain
does not match) returns an empty mapping — zero entries for one step, so
not one entry per step — and for the dispatched step of `ewf2` the single
entry is keyed by the fixed tag `analysis`, not by the step name (which
`execute_workflow` never reads). -/
theorem C6_execute_fixed_keys_counterexample :
    MGR.execute_workflowB exeStoreMiss "ewf" =
      .ok ([] : List (String × Option Unit)) ∧
    ([] : List (String × Option Unit)).length = 0 ∧
    [exStepAssist].length = 1 ∧
    MGR.execute_workflowB exeStoreCA "ewf2" = .ok [("analysis", none)] :=
  ⟨rfl, rfl, rfl, rfl⟩

/-- C6 (amended): in the workflow.py runner, a successful run of a stored
workflow whose step names are pairwise distinct returns exactly one result
entry per step, keyed by the name of that step, in step order; in
manager.py `execute_workflow`, results are never keyed by step name — every
key of a returned mapping is one of the fixed tags `analysis`, `tests`,
`refactoring` — and a step whose type the chain does not match contributes
no entry at all. -/
theorem C6_results_keyed_by_step_name (st : WF.Store) (name : String)
    (w : WF.Workflow) (hget : WF.get_workflow st name = some w)
    (hnd : (w.steps.map WF.WorkflowStep.name).Nodup) :
    WF.run_workflow st name =
      .ok (w.steps.map (fun s => (s.name, WF.runStep s))) ∧
    (∀ (storeM : List (String × MGR.WorkflowB)) (nm : String)
       (wM : MGR.WorkflowB), dlookup nm storeM = some wM →
      MGR.execute_workflowB storeM nm = .ok (MGR.executeSteps wM []) ∧
      dkeys (MGR.executeSteps wM []) ⊆ ["analysis", "tests", "refactoring"]) ∧
    (∀ (s : MGR.StepB) (rest : List MGR.StepB)
       (acc : List (String × Option Unit)),
      s.type ≠ some "code_analysis" → s.type ≠ some "test_generation" →
      s.type ≠ some "refactoring" →
      MGR.executeSteps (s :: rest) acc = MGR.executeSteps rest acc) := by
  refine ⟨?_, ?_, ?_⟩
  · simp only [WF.run_workflow, hget]
    rw [runSteps_fresh w.steps [] (by simp [dkeys]) hnd]
    simp
  · intro storeM nm wM hM
    constructor
    · simp [MGR.execute_workflowB, hM]
    · exact dkeys_executeSteps_subset wM [] (by simp [dkeys])
  · intro s rest acc h1 h2 h3
    simp [MGR.executeSteps, h1, h2, h3]

/-- C6 witness: the stored two-step workflow.py workflow `diswf` with
distinct step names s2, s3 yields exactly one keyed entry per step, while
the manager.py `execute_workflow` run of `ewf2` yields the fixed-tag entry
and the unmatched step of `ewf` contributes nothing. -/
theorem C6_results_witness :
    WF.get_workflow disStore "diswf" = some disWorkflow ∧
    (disWorkflow.steps.map WF.WorkflowStep.name).Nodup ∧
    WF.run_workflow disStore "diswf" =
      .ok [("s2", .skipped "Unknown step type: foo"),
           ("s3", .notImplemented)] ∧
    MGR.execute_workflowB exeStoreCA "ewf2" =
      .ok (MGR.executeSteps [exStepCA] []) ∧
    dkeys (MGR.executeSteps [exStepCA] []) ⊆
      ["analysis", "tests", "refactoring"] ∧
    MGR.executeSteps [exStepAssist] [] = ([] : List (String × Option Unit)) := by
  have h := C6_results_keyed_by_step_name disStore "diswf" disWorkflow rfl
    (by decide)
  have hM := h.2.1 exeStoreCA "ewf2" [exStepCA] rfl
  refine ⟨rfl, by decide, ?_, hM.1, hM.2, ?_⟩
  · rw [h.1]; rfl
  · rw [h.2.2 exStepAssist [] [] (by decide) (by decide) (by decide)]
    rfl

/-- C7 counterexample: the manager.py `create_workflow` — one of the put
operations this claim cites — does not silently overwrite an existing
record: as written it raises `AttributeError` (its first statement reads
`self.workflows_dir`, which `__init__` never assigns), and with that
attribute supplied it returns `False` for an existing name, rejecting the
write and leaving the store unchanged. -/
theorem C7_create_rejects_counterexample :
    MGR.create_workflowB ⟨[], none, ["A"]⟩ "A" "desc" [] =
      .error MGR.workflowsDirError ∧
    MGR.create_workflowB ⟨[], some "/wdir", ["A"]⟩ "A" "desc" [] =
      .ok (false, ⟨[], some "/wdir", ["A"]⟩) :=
  ⟨rfl, rfl⟩

/-- C7 (amended): for a name already present, the workflow.py
`create_workflow` write and the manager.py `add_workflow` silently
overwrite — the operation succeeds and a subsequent get returns the new
record — while the manager.py `create_workflow` does not overwrite: it
raises `AttributeError` as written, and rejects the write (returns `False`
with the store unchanged) were `workflows_dir` supplied. -/
theorem C7_overwrite_semantics (stA : WF.Store) (w : WF.Workflow)
    (old : YVal) (stB : MGR.ManagerState) (n : String)
    (wf oldB : MGR.WorkflowB) (dir d : String) (steps : List MGR.StepB)
    (hA : dlookup w.name stA = some old)
    (hB : dlookup n stB.workflows = some oldB)
    (hfile : n ∈ stB.files) :
    WF.get_workflow (WF.putWorkflow stA w) w.name = some w ∧
    dlookup n (MGR.add_workflowB stB n wf).workflows = some wf ∧
    MGR.create_workflowB { stB with workflowsDir := none } n d steps =
      .error MGR.workflowsDirError ∧
    MGR.create_workflowB { stB with workflowsDir := some dir } n d steps =
      .ok (false, { stB with workflowsDir := some dir }) := by
  refine ⟨get_workflow_putWorkflow stA w, ?_, rfl, ?_⟩
  · simp [MGR.add_workflowB, dlookup_dinsert_self]
  · simp [MGR.create_workflowB, hfile]

/-- C7 witness: `wf` is already stored in `exStore` and `wfb` in the
manager state; both overwriting puts succeed and return the new record,
while the manager.py `create_workflow` rejects. -/
theorem C7_overwrite_witness :
    dlookup "wf" exStore = some exWorkflow.toY ∧
    WF.get_workflow (WF.putWorkflow exStore exWorkflow2) "wf" =
      some exWorkflow2 ∧
    dlookup "wfb"
      (MGR.add_workflowB ⟨[("wfb", [exStepOk])], none, ["wfb"]⟩ "wfb"
        []).workflows = some [] ∧
    MGR.create_workflowB ⟨[("wfb", [exStepOk])], some "/wdir", ["wfb"]⟩
      "wfb" "" [] =
      .ok (false, ⟨[("wfb", [exStepOk])], some "/wdir", ["wfb"]⟩) := by
  have h := C7_overwrite_semantics exStore exWorkflow2 exWorkflow.toY
    ⟨[("wfb", [exStepOk])], none, ["wfb"]⟩ "wfb" [] [exStepOk] "/wdir" "" []
    rfl rfl (by decide)
  exact ⟨rfl, h.1, h.2.1, h.2.2.2⟩

/-- C8 (code-bug evaluation): from an empty store, the manager.py
`create_workflow` — the put cited for this claim — raises `AttributeError`
on its very first statement because `__init__` never assigns
`self.workflows_dir`; and even with that attribute supplied, the sequence
put A, put B, delete A leaves `list_workflows()` — which reads the
in-memory `workflows` dict that `create_workflow` and `delete_workflow`
never touch — returning `[]` rather than `["B"]`. -/
theorem C8_store_sequence_divergence :
    MGR.create_workflowB (MGR.initManagerState []) "A" "" [] =
      .error MGR.workflowsDirError ∧
    MGR.create_workflowB ⟨[], some "/wdir", []⟩ "A" "" [] =
      .ok (true, ⟨[], some "/wdir", ["A"]⟩) ∧
    MGR.create_workflowB ⟨[], some "/wdir", ["A"]⟩ "B" "" [] =
      .ok (true, ⟨[], some "/wdir", ["A", "B"]⟩) ∧
    MGR.delete_workflowB ⟨[], some "/wdir", ["A", "B"]⟩ "A" =
      .ok (true, ⟨[], some "/wdir", ["B"]⟩) ∧
    MGR.list_workflowsB ⟨[], some "/wdir", ["B"]⟩ = [] ∧
    (["B"] : List String) ≠ [] :=
  ⟨rfl, rfl, rfl, rfl, rfl, by decide⟩

/-- C9: when a stored workflow contains two steps with the same name, the
run returns a single result entry under that name, holding the outcome of
the later step; the earlier outcome is silently overwritten. -/
theorem C9_duplicate_name_last_wins (st : WF.Store) (name : String)
    (w : WF.Workflow) (pre mid post : List WF.WorkflowStep)
    (s1 s2 : WF.WorkflowStep) (n : String)
    (hget : WF.get_workflow st name = some w)
    (hsteps : w.steps = pre ++ s1 :: (mid ++ s2 :: post))
    (hn1 : s1.name = n) (hn2 : s2.name = n)
    (hpre : ∀ t ∈ pre, t.name ≠ n) (hmid : ∀ t ∈ mid, t.name ≠ n)
    (hpost : ∀ t ∈ post, t.name ≠ n) :
    WF.run_workflow st name = .ok (WF.runSteps w.steps []) ∧
    dlookup n (WF.runSteps w.steps []) = some (WF.runStep s2) ∧
    (dkeys (WF.runSteps w.steps [])).count n = 1 := by
  have hrun : WF.run_workflow st name = .ok (WF.runSteps w.steps []) := by
    simp [WF.run_workflow, hget]
  have hsteps2 : WF.runSteps w.steps [] =
      WF.runSteps post (dinsert s2.name (WF.runStep s2)
        (WF.runSteps mid (dinsert s1.name (WF.runStep s1)
          (WF.runSteps pre [])))) := by
    rw [hsteps, runSteps_append]
    simp only [WF.runSteps]
    rw [runSteps_append]
    simp only [WF.runSteps]
  have hlook : dlookup n (WF.runSteps w.steps []) = some (WF.runStep s2) := by
    rw [hsteps2, dlookup_runSteps_notin post _ n hpost, hn2,
      dlookup_dinsert_self]
  have hnodup : (dkeys (WF.runSteps w.steps [])).Nodup :=
    nodup_dkeys_runSteps _ _ (by simp [dkeys])
  exact ⟨hrun, hlook,
    List.count_eq_one_of_mem hnodup (mem_dkeys_of_dlookup hlook)⟩

/-- C9 witness: the stored workflow `dupwf` has two steps named `dup`; the
run yields one entry under `dup` holding the outcome of the later step. -/
theorem C9_duplicate_witness :
    WF.get_workflow dupStore "dupwf" = some dupWorkflow ∧
    WF.run_workflow dupStore "dupwf" =
      .ok [("dup", .skipped "Unknown step type: bar")] ∧
    dlookup "dup" (WF.runSteps dupWorkflow.steps []) =
      some (.skipped "Unknown step type: bar") ∧
    (dkeys (WF.runSteps dupWorkflow.steps [])).count "dup" = 1 := by
  have h := C9_duplicate_name_last_wins dupStore "dupwf" dupWorkflow
    [] [] [] dupStep1 dupStep2 "dup" rfl rfl rfl rfl
    (by simp) (by simp) (by simp)
  refine ⟨rfl, ?_, ?_, h.2.2⟩
  · rw [h.1]; rfl
  · rw [h.2.1]; rfl

/-- C10: calling `ConfigManager.set` with a key that is not an attribute of
the `Config` model is a no-op: the in-memory configuration and the
configuration file are left unchanged and no error is raised. -/
theorem C10_set_unknown_key_noop (st : CFG.ConfigManagerState)
    (key value : String) (h : key ∉ CFG.configFieldNames) :
    CFG.configSet st key value = st := by
  simp [CFG.configSet, h]

/-- C10 witness: `verbosity` is not a field of the Config model; setting it
leaves the default manager state untouched. -/
theorem C10_set_unknown_key_witness :
    "verbosity" ∉ CFG.configFieldNames ∧
    CFG.configSet ⟨CFG.defaultConfig, none⟩ "verbosity" "high" =
      ⟨CFG.defaultConfig, none⟩ :=
  ⟨by decide,
   C10_set_unknown_key_noop ⟨CFG.defaultConfig, none⟩ "verbosity" "high"
     (by decide)⟩


end DevChat
